import Mathlib

/-!
# Verification of `graphslam/pose/se2.py` (`PoseSE2`)

A shallow embedding of the `PoseSE2` class: a pose in SE(2) stored as the
triple `(x, y, theta)` of float64 components (modeled as real numbers),
with composition (`__add__`), inverse (`inverse`), relative pose
(`__sub__`), accessors, and conversion to/from 3×3 homogeneous matrices.

Numpy intermediate values are modeled by `NPVal`: a float64 scalar or a
one-dimensional ndarray (a list of reals).  This distinction matters
because `PoseSE2.inverse` in the source computes its second position
component as `self[0] * np.sin(self[2]) - self[1] * np.cos([self[2]])`:
the argument `[self[2]]` is a one-element Python list, so `np.cos` returns
a one-element ndarray and the whole component is a one-element ndarray,
not a scalar.  The constructor `PoseSE2.__new__` then evaluates
`np.array([position[0], position[1], orientation], dtype=np.float64)` on a
ragged mix of scalars and a one-element array, which raises `ValueError`
("setting an array element with a sequence").  The constructor is
therefore modeled as `Option`-valued.
-/

noncomputable section

/-- The value of a numpy expression in `se2.py`: either a float64 scalar or a
one-dimensional ndarray, whose entries we model as real numbers. -/
inductive NPVal where
  | scalar (x : ℝ)
  | vec (xs : List ℝ)

/-- Numpy multiplication with scalar/array broadcasting (elementwise on
arrays; a scalar multiplies every entry). -/
def NPVal.mul : NPVal → NPVal → NPVal
  | NPVal.scalar a, NPVal.scalar b => NPVal.scalar (a * b)
  | NPVal.scalar a, NPVal.vec bs => NPVal.vec (bs.map fun b => a * b)
  | NPVal.vec as, NPVal.scalar b => NPVal.vec (as.map fun a => a * b)
  | NPVal.vec as, NPVal.vec bs => NPVal.vec (List.zipWith (· * ·) as bs)

/-- Numpy subtraction with scalar/array broadcasting. -/
def NPVal.sub : NPVal → NPVal → NPVal
  | NPVal.scalar a, NPVal.scalar b => NPVal.scalar (a - b)
  | NPVal.scalar a, NPVal.vec bs => NPVal.vec (bs.map fun b => a - b)
  | NPVal.vec as, NPVal.scalar b => NPVal.vec (as.map fun a => a - b)
  | NPVal.vec as, NPVal.vec bs => NPVal.vec (List.zipWith (· - ·) as bs)

/-- `np.cos`, elementwise on arrays. -/
def npCos : NPVal → NPVal
  | NPVal.scalar x => NPVal.scalar (Real.cos x)
  | NPVal.vec xs => NPVal.vec (xs.map Real.cos)

/-- `np.sin`, elementwise on arrays. -/
def npSin : NPVal → NPVal
  | NPVal.scalar x => NPVal.scalar (Real.sin x)
  | NPVal.vec xs => NPVal.vec (xs.map Real.sin)

/-- A pose in SE(2): the three float64 components stored by the
`PoseSE2` ndarray subclass, `self[0] = x`, `self[1] = y`,
`self[2] = theta`. -/
@[ext]
structure PoseSE2 where
  x : ℝ
  y : ℝ
  theta : ℝ

/-- `PoseSE2.__new__(cls, position, orientation)`: evaluates
`np.array([position[0], position[1], orientation], dtype=np.float64)`.
Every call site passes a scalar orientation, so the list is homogeneous
exactly when both position entries are scalars; when one entry is an
ndarray the list is ragged and `np.array` with `dtype=np.float64` raises
`ValueError`, modeled as `none`. -/
def PoseSE2.new : NPVal → NPVal → ℝ → Option PoseSE2
  | NPVal.scalar a, NPVal.scalar b, c => some ⟨a, b, c⟩
  | _, _, _ => none

/-- `PoseSE2.to_array`: `np.array(self)`, the plain 3-vector copy of the
stored components. -/
def PoseSE2.to_array (p : PoseSE2) : Fin 3 → ℝ := ![p.x, p.y, p.theta]

/-- `PoseSE2.to_compact`: also `np.array(self)`, translated from its own
(identical) source body. -/
def PoseSE2.to_compact (p : PoseSE2) : Fin 3 → ℝ := ![p.x, p.y, p.theta]

/-- `PoseSE2.to_matrix`:
`np.array([[cos θ, -sin θ, x], [sin θ, cos θ, y], [0, 0, 1]])`. -/
def PoseSE2.to_matrix (p : PoseSE2) : Matrix (Fin 3) (Fin 3) ℝ :=
  !![Real.cos p.theta, -Real.sin p.theta, p.x;
     Real.sin p.theta, Real.cos p.theta, p.y;
     0, 0, 1]

/-- `math.atan2 y x` over the reals: the argument of the point `(x, y)` in
the half-open range `(-π, π]`, with `atan2 0 0 = 0`, modeled by the
complex argument of `x + y·i`.  (The float-only distinction between
`+0.0` and `-0.0` does not exist over ℝ.) -/
def atan2 (y x : ℝ) : ℝ := Complex.arg (x + y * Complex.I)

/-- `PoseSE2.from_matrix`:
`cls([matrix[0, 2], matrix[1, 2]], math.atan2(matrix[1, 0], matrix[0, 0]))`.
Both position entries are scalar matrix entries, so the constructor
always succeeds. -/
def PoseSE2.from_matrix (m : Matrix (Fin 3) (Fin 3) ℝ) : PoseSE2 :=
  ⟨m 0 2, m 1 2, atan2 (m 1 0) (m 0 0)⟩

/-- `PoseSE2.position`: `np.array(self[:2])`. -/
def PoseSE2.position (p : PoseSE2) : Fin 2 → ℝ := ![p.x, p.y]

/-- `PoseSE2.orientation`: `self[2]`. -/
def PoseSE2.orientation (p : PoseSE2) : ℝ := p.theta

/-- `PoseSE2.inverse`:
`PoseSE2([-self[0] * np.cos(self[2]) - self[1] * np.sin(self[2]),
self[0] * np.sin(self[2]) - self[1] * np.cos([self[2]])], -self[2])`.
Note `np.cos([self[2]])` in the second component: its argument is the
one-element list `[self[2]]`, so that component is a one-element ndarray
and the constructor receives a ragged list. -/
def PoseSE2.inverse (p : PoseSE2) : Option PoseSE2 :=
  PoseSE2.new
    (NPVal.sub (NPVal.mul (NPVal.scalar (-p.x)) (npCos (NPVal.scalar p.theta)))
               (NPVal.mul (NPVal.scalar p.y) (npSin (NPVal.scalar p.theta))))
    (NPVal.sub (NPVal.mul (NPVal.scalar p.x) (npSin (NPVal.scalar p.theta)))
               (NPVal.mul (NPVal.scalar p.y) (npCos (NPVal.vec [p.theta]))))
    (-p.theta)

/-- `PoseSE2.__add__` (pose composition `p1 ⊕ p2`):
`PoseSE2([self[0] + other[0] * np.cos(self[2]) - other[1] * np.sin(self[2]),
self[1] + other[0] * np.sin(self[2]) + other[1] * np.cos(self[2])],
self[2] + other[2])`.  All constructor entries are scalars, so the
construction always succeeds and we return the pose directly. -/
def PoseSE2.add (p1 p2 : PoseSE2) : PoseSE2 :=
  ⟨p1.x + p2.x * Real.cos p1.theta - p2.y * Real.sin p1.theta,
   p1.y + p2.x * Real.sin p1.theta + p2.y * Real.cos p1.theta,
   p1.theta + p2.theta⟩

/-- `PoseSE2.__sub__` (relative pose `p1 ⊖ p2`): `other.inverse + self`.
If `other.inverse` raises, the exception propagates. -/
def PoseSE2.sub (p1 p2 : PoseSE2) : Option PoseSE2 :=
  (PoseSE2.inverse p2).map fun q => PoseSE2.add q p1

/-- The pose the spec's closed form for `inverse` describes:
`(-x·cosθ - y·sinθ, x·sinθ - y·cosθ, -θ)`.  This is also the value the
source's arithmetic denotes entrywise, before the ragged construction
aborts. -/
def intendedInverse (p : PoseSE2) : PoseSE2 :=
  ⟨-p.x * Real.cos p.theta - p.y * Real.sin p.theta,
   p.x * Real.sin p.theta - p.y * Real.cos p.theta,
   -p.theta⟩

/-! ## Theorems -/

/-- C2: the claim says `p.inverse` is the pose
`(-x·cosθ - y·sinθ, x·sinθ - y·cosθ, -θ)` whose matrix is the matrix
inverse of `to_matrix p`.  In the code, for every pose the constructor
call inside `inverse` receives the one-element ndarray
`self[0]*np.sin(self[2]) - self[1]*np.cos([self[2]])` as its second
position entry, so `np.array(..., dtype=np.float64)` raises `ValueError`
and `inverse` returns no pose at all. -/
theorem PoseSE2.inverse_always_fails (p : PoseSE2) : PoseSE2.inverse p = none := rfl

/-- C3: the claim says `p1 ⊖ p2` equals `p2.inverse ⊕ p1` and its matrix
is `(to_matrix p2)⁻¹ * to_matrix p1`.  The code indeed evaluates
`other.inverse + self`, but `other.inverse` raises `ValueError` for every
pose, so `p1 ⊖ p2` never produces a pose and the matrix identity cannot
hold. -/
theorem PoseSE2.sub_always_fails (p1 p2 : PoseSE2) : PoseSE2.sub p1 p2 = none := rfl

/-- C5: the claim says `p.inverse ⊕ p` (equivalently `p ⊖ p`) is the
identity pose `(0, 0, 0)`.  In the code `p ⊖ p` evaluates `p.inverse`,
which raises `ValueError` for every pose, so `p ⊖ p` never yields the
identity pose. -/
theorem PoseSE2.sub_self_fails (p : PoseSE2) : PoseSE2.sub p p = none := rfl

/-- The intended inverse (the spec's closed form, which the source's
arithmetic denotes entrywise) composed on the left with `p` gives the
identity pose exactly: this is the property C5 asserts of the
(crashing) code. -/
theorem intendedInverse_add_left (p : PoseSE2) :
    PoseSE2.add (intendedInverse p) p = ⟨0, 0, 0⟩ := by
  ext <;> simp [PoseSE2.add, intendedInverse, Real.cos_neg, Real.sin_neg] <;> ring

/-- C7: a pose constructed from scalar position entries `(px, py)` and
orientation `t` (the only way construction succeeds) reports exactly
`(px, py)` as its position and exactly `t` as its orientation. -/
theorem PoseSE2.accessors_identity (px py t : ℝ) (q : PoseSE2)
    (h : PoseSE2.new (NPVal.scalar px) (NPVal.scalar py) t = some q) :
    PoseSE2.position q = ![px, py] ∧ PoseSE2.orientation q = t := by
  have hq : q = ⟨px, py, t⟩ := by
    simpa [PoseSE2.new] using h.symm
  subst hq
  exact ⟨rfl, rfl⟩

/-- Witness for C7 at the concrete construction `PoseSE2([1, 2], 3)`. -/
theorem PoseSE2.accessors_identity_witness :
    PoseSE2.position ⟨1, 2, 3⟩ = ![1, 2] ∧ PoseSE2.orientation ⟨1, 2, 3⟩ = 3 :=
  PoseSE2.accessors_identity 1 2 3 ⟨1, 2, 3⟩ rfl

/-- C8: `to_array` and `to_compact` are the same operation: on every pose
both return the 3-vector `[x, y, θ]`. -/
theorem PoseSE2.to_array_eq_to_compact (p : PoseSE2) :
    PoseSE2.to_array p = PoseSE2.to_compact p ∧
      PoseSE2.to_array p = ![p.x, p.y, p.theta] :=
  ⟨rfl, rfl⟩

/-- C10: `from_matrix` reads only the entries `[0][2]`, `[1][2]`, `[1][0]`
and `[0][0]`: any two 3×3 matrices agreeing on those four entries map to
the same pose, with no validation of the rotation block, the remaining
entries or the bottom row. -/
theorem PoseSE2.from_matrix_reads_four_entries (M N : Matrix (Fin 3) (Fin 3) ℝ)
    (h02 : M 0 2 = N 0 2) (h12 : M 1 2 = N 1 2)
    (h10 : M 1 0 = N 1 0) (h00 : M 0 0 = N 0 0) :
    PoseSE2.from_matrix M = PoseSE2.from_matrix N := by
  simp [PoseSE2.from_matrix, h02, h12, h10, h00]

/-- Witness for C10: two concrete matrices that agree on the four read
entries but differ in entries `[0][1]`, `[1][1]` and the whole bottom
row (the second is not even an SE(2) transform) yield equal poses. -/
theorem PoseSE2.from_matrix_reads_four_entries_witness :
    PoseSE2.from_matrix (Matrix.of ![![1, 0, 5], ![0, 1, 6], ![0, 0, 1]]) =
      PoseSE2.from_matrix (Matrix.of ![![1, 7, 5], ![0, 8, 6], ![2, 3, 4]]) :=
  PoseSE2.from_matrix_reads_four_entries _ _ rfl rfl rfl rfl

/-- C1: composition is a homomorphism into matrix multiplication, and the
composed angle is exactly `θ1 + θ2`, with no wrapping into any canonical
range. -/
theorem PoseSE2.add_matrix_hom (p1 p2 : PoseSE2) :
    PoseSE2.to_matrix (PoseSE2.add p1 p2) =
      PoseSE2.to_matrix p1 * PoseSE2.to_matrix p2 ∧
    (PoseSE2.add p1 p2).theta = p1.theta + p2.theta := by
  refine ⟨?_, rfl⟩
  ext i j
  fin_cases i <;> fin_cases j <;>
    simp [PoseSE2.to_matrix, PoseSE2.add, Matrix.mul_apply, Fin.sum_univ_three,
      Real.cos_add, Real.sin_add] <;> ring

/-- C9: composition is associative in exact real arithmetic. -/
theorem PoseSE2.compose_assoc (p1 p2 p3 : PoseSE2) :
    PoseSE2.add (PoseSE2.add p1 p2) p3 = PoseSE2.add p1 (PoseSE2.add p2 p3) := by
  ext <;> simp [PoseSE2.add, Real.cos_add, Real.sin_add] <;> ring

/-- C6: composition is not commutative: the poses `(1, 0, 0)` and
`(0, 0, π/2)` are distinct and compose differently in the two orders
(the x components are `1` and `0`). -/
theorem PoseSE2.add_not_commutative :
    ∃ p1 p2 : PoseSE2, p1 ≠ p2 ∧ PoseSE2.add p1 p2 ≠ PoseSE2.add p2 p1 := by
  refine ⟨⟨1, 0, 0⟩, ⟨0, 0, Real.pi / 2⟩, ?_, ?_⟩
  · intro h
    have hx : (1 : ℝ) = 0 := congrArg PoseSE2.x h
    norm_num at hx
  · intro h
    have hx := congrArg PoseSE2.x h
    simp [PoseSE2.add, Real.cos_pi_div_two, Real.sin_pi_div_two] at hx

/-- Helper: the complex number `cos t + sin t * I` (with real coercions)
has absolute value one. -/
lemma abs_ofReal_cos_add_sin_mul_I (t : ℝ) :
    Complex.abs ((Real.cos t : ℂ) + (Real.sin t : ℂ) * Complex.I) = 1 := by
  rw [Complex.ofReal_cos, Complex.ofReal_sin]
  exact Complex.abs_cos_add_sin_mul_I t

/-- Helper: `atan2 (sin t) (cos t)` is the representative of the angle `t`
in `(-π, π]`: it has the same cosine and sine as `t`, lies in `(-π, π]`,
and equals `t` when `t` already lies in that range. -/
lemma atan2_sin_cos_spec (t : ℝ) :
    Real.cos (atan2 (Real.sin t) (Real.cos t)) = Real.cos t ∧
    Real.sin (atan2 (Real.sin t) (Real.cos t)) = Real.sin t ∧
    atan2 (Real.sin t) (Real.cos t) ∈ Set.Ioc (-Real.pi) Real.pi ∧
    (t ∈ Set.Ioc (-Real.pi) Real.pi → atan2 (Real.sin t) (Real.cos t) = t) := by
  have hz : ((Real.cos t : ℂ) + (Real.sin t : ℂ) * Complex.I) ≠ 0 := by
    intro h
    have h1 := abs_ofReal_cos_add_sin_mul_I t
    rw [h] at h1
    simp at h1
  refine ⟨?_, ?_, Complex.arg_mem_Ioc _, ?_⟩
  · rw [atan2, Complex.cos_arg hz]
    simp [abs_ofReal_cos_add_sin_mul_I, Complex.cos_ofReal_re]
  · rw [atan2, Complex.sin_arg]
    simp [abs_ofReal_cos_add_sin_mul_I, Complex.sin_ofReal_re]
  · intro ht
    rw [atan2, Complex.ofReal_cos, Complex.ofReal_sin]
    exact Complex.arg_cos_add_sin_mul_I ht

/-- C4: the matrix round-trip reproduces `x` and `y` exactly and returns
the angle wrapped into the `atan2` range `(-π, π]` (same cosine and
sine); when `θ` already lies in `(-π, π]` the round-trip is the
identity. -/
theorem PoseSE2.from_to_matrix_roundtrip (p : PoseSE2) :
    (PoseSE2.from_matrix (PoseSE2.to_matrix p)).x = p.x ∧
    (PoseSE2.from_matrix (PoseSE2.to_matrix p)).y = p.y ∧
    Real.cos (PoseSE2.from_matrix (PoseSE2.to_matrix p)).theta = Real.cos p.theta ∧
    Real.sin (PoseSE2.from_matrix (PoseSE2.to_matrix p)).theta = Real.sin p.theta ∧
    (PoseSE2.from_matrix (PoseSE2.to_matrix p)).theta ∈ Set.Ioc (-Real.pi) Real.pi ∧
    (p.theta ∈ Set.Ioc (-Real.pi) Real.pi →
      PoseSE2.from_matrix (PoseSE2.to_matrix p) = p) := by
  have hth : (PoseSE2.from_matrix (PoseSE2.to_matrix p)).theta
      = atan2 (Real.sin p.theta) (Real.cos p.theta) := rfl
  obtain ⟨hc, hs, hrange, heq⟩ := atan2_sin_cos_spec p.theta
  refine ⟨rfl, rfl, ?_, ?_, ?_, ?_⟩
  · rw [hth]; exact hc
  · rw [hth]; exact hs
  · rw [hth]; exact hrange
  · intro ht
    ext
    · rfl
    · rfl
    · rw [hth]; exact heq ht

/-- Witness for C4 at the pose `(1, 2, 1)`, whose angle `1` lies in
`(-π, π]`: the round-trip is the identity there. -/
theorem PoseSE2.from_to_matrix_roundtrip_witness :
    PoseSE2.from_matrix (PoseSE2.to_matrix ⟨1, 2, 1⟩) = ⟨1, 2, 1⟩ := by
  have h := PoseSE2.from_to_matrix_roundtrip ⟨1, 2, 1⟩
  refine h.2.2.2.2.2 ⟨?_, ?_⟩
  · show -Real.pi < (1 : ℝ)
    linarith [Real.pi_gt_three]
  · show (1 : ℝ) ≤ Real.pi
    linarith [Real.pi_gt_three]
